import Mathlib

/-!
# TimerWork: the work-week timer of `backend/main.go`

A shallow embedding of the timer state machine of the TimerWork backend
(`startWeek`, `endWeek`, `pauseTimer`, `resumeTimer`, `getCurrentWorkTime`,
`calculateElapsedTime` and the per-row computation of `getWorkWeekHistory`).

Modelling conventions.

* A `time.Time` is an `Int`: nanoseconds since the epoch.  `time.Now()` is an
  explicit argument `now` of every handler.
* `int64(t.Sub(u).Seconds())` is `subSeconds t u`: the difference in
  nanoseconds divided by `10^9` with truncation toward zero.  This is exact for
  spans shorter than `2^24` seconds (`exactSpan`) and for whole-second spans
  below the saturation of `time.Duration` at about 292 years; beyond that the
  `float64` sum may round up by one second, and statements about values carry
  the range as a hypothesis.
* The table `work_weeks` is the list of its rows in insertion order (the order
  of `created_at`); a `SERIAL` id is the number of rows so far plus one.  The
  store keeps timestamps as they are written.  `total_pause_time` and
  `week_goal_minutes` are `INTEGER` columns: an `INSERT` of a goal above
  `int32Max` fails, and statements about `total_pause_time` keep it in
  `int32Range`, where `int64` arithmetic is arithmetic on `Int`.  Other database
  failures are not modelled.
* A handler returns the new table together with its HTTP response.
-/

namespace TimerWork

/-- A `time.Time`, as nanoseconds since the epoch. -/
abbrev Time := Int

/-- Nanoseconds per second (`time.Second`). -/
def nanosPerSecond : Int := 1000000000

/-- The Go expression `int64(t.Sub(u).Seconds())`. -/
def subSeconds (t u : Time) : Int := Int.tdiv (t - u) nanosPerSecond

/-- The instant that lies a whole number `n` of seconds after the epoch. -/
def atSecond (n : Int) : Time := n * nanosPerSecond

/-- The row type `WorkWeek` of table `work_weeks`. -/
structure WorkWeek where
  id : Int
  userID : Int
  weekStart : Time
  weekEnd : Option Time
  lastUpdateTime : Time
  status : String
  pauseStart : Option Time
  totalPauseTime : Int
  weekGoalMinutes : Int
deriving DecidableEq, Repr

/-- The type `WorkWeekHistoryItem`. -/
structure WorkWeekHistoryItem where
  id : Int
  weekNumber : Int
  startedAt : Option Time
  endedAt : Option Time
  totalWorkMinutes : Int
  weekGoalMinutes : Int
  isPaused : Bool
  status : String
deriving DecidableEq, Repr

/-- The body of `StartWeekRequest`. -/
structure StartWeekRequest where
  goalMinutes : Int
deriving DecidableEq, Repr

/-- An HTTP answer: status code and the `message` or `error` text. -/
structure Response where
  code : Nat
  text : String
deriving DecidableEq, Repr

/-- The JSON answer of `getCurrentWorkTime`. -/
structure CurrentWorkTime where
  elapsedTime : Int
  status : String
  weekStart : Option Time
  weekEnd : Option Time
deriving DecidableEq, Repr

/-- The table `work_weeks`, rows in insertion order. -/
abbrev Store := List WorkWeek

/-- The method `calculateElapsedTime`, with `time.Now()` passed as `now`.  The
subtractions are on `Int`; they are the code's `int64` values for a
`total_pause_time` in `int32Range`. -/
def calculateElapsedTime (now : Time) (workWeek : WorkWeek) : Int :=
  match decide (workWeek.status = "stopped"), workWeek.weekEnd with
  | true, some weekEnd =>
    let totalTime := subSeconds weekEnd workWeek.weekStart
    totalTime - workWeek.totalPauseTime
  | _, _ =>
    let (currentTime, additionalPause) : Time × Int :=
      if workWeek.status = "running" then (now, 0)
      else if workWeek.status = "paused" then
        (workWeek.lastUpdateTime,
          match workWeek.pauseStart with
          | some pauseStart => subSeconds now pauseStart
          | none => 0)
      else (workWeek.lastUpdateTime, 0)
    let totalTime := subSeconds currentTime workWeek.weekStart
    totalTime - workWeek.totalPauseTime - additionalPause

/-- The clause `user_id = $1 AND week_end IS NULL`. -/
def activeFor (userID : Int) (w : WorkWeek) : Bool :=
  decide (w.userID = userID) && w.weekEnd.isNone

/-- The clause `user_id = $1 AND week_end IS NULL AND status = st`. -/
def activeWithStatus (userID : Int) (st : String) (w : WorkWeek) : Bool :=
  activeFor userID w && decide (w.status = st)

/-- The largest value of a PostgreSQL `INTEGER` column. -/
def int32Max : Int := 2147483647

/-- A value that a PostgreSQL `INTEGER` column can hold. -/
def int32Range (x : Int) : Prop := -2147483648 ≤ x ∧ x ≤ int32Max

instance (x : Int) : Decidable (int32Range x) := by
  unfold int32Range
  infer_instance

/-- The span `t - u` is shorter than `2^24` seconds (about 194 days).  On such
spans `subSeconds` is the value of the Go expression: the `Duration` does not
saturate and the `float64` sum of whole seconds and fraction does not round up
to the next second. -/
def exactSpan (t u : Time) : Prop :=
  -(16777216 * nanosPerSecond) < t - u ∧ t - u < 16777216 * nanosPerSecond

instance (t u : Time) : Decidable (exactSpan t u) := by
  unfold exactSpan
  infer_instance

/-- The handler `startWeek`; `req = none` is a body that does not bind.  The
`INSERT` fails, and the answer is 500, when `goal_minutes` does not fit the
`INTEGER` column. -/
def startWeek (s : Store) (userID : Int) (req : Option StartWeekRequest) (now : Time) :
    Store × Response :=
  match req with
  | none => (s, ⟨400, "Invalid request format"⟩)
  | some req =>
    let goalMinutes := if req.goalMinutes ≤ 0 then 2400 else req.goalMinutes
    match s.reverse.find? (activeFor userID) with
    | some _ => (s, ⟨400, "Week already started"⟩)
    | none =>
      if int32Max < goalMinutes then (s, ⟨500, "Failed to start week"⟩) else
      let row : WorkWeek :=
        { id := s.length + 1
          userID := userID
          weekStart := now
          weekEnd := none
          lastUpdateTime := now
          status := "running"
          pauseStart := none
          totalPauseTime := 0
          weekGoalMinutes := goalMinutes }
      (s ++ [row], ⟨200, "Week started"⟩)

/-- The handler `endWeek`. -/
def endWeek (s : Store) (userID : Int) (now : Time) : Store × Response :=
  let rowsAffected := s.countP (activeFor userID)
  let s' := s.map fun w =>
    if activeFor userID w then
      { w with weekEnd := some now, lastUpdateTime := now, status := "stopped" }
    else w
  if rowsAffected = 0 then (s', ⟨400, "No active week found"⟩)
  else (s', ⟨200, "Week ended"⟩)

/-- The handler `pauseTimer`. -/
def pauseTimer (s : Store) (userID : Int) (now : Time) : Store × Response :=
  let rowsAffected := s.countP (activeWithStatus userID "running")
  let s' := s.map fun w =>
    if activeWithStatus userID "running" w then
      { w with status := "paused", pauseStart := some now, lastUpdateTime := now }
    else w
  if rowsAffected = 0 then (s', ⟨400, "No running timer found"⟩)
  else (s', ⟨200, "Timer paused"⟩)

/-- The handler `resumeTimer`.  The new total is computed on `Int`; it is the
code's value, and the `UPDATE` stores it, while it stays in `int32Range` and the
pause is an `exactSpan`. -/
def resumeTimer (s : Store) (userID : Int) (now : Time) : Store × Response :=
  match s.find? (activeWithStatus userID "paused") with
  | none => (s, ⟨400, "No paused timer found"⟩)
  | some row =>
    let pauseDuration : Int :=
      match row.pauseStart with
      | some pauseStart => subSeconds now pauseStart
      | none => 0
    let totalPauseTime := row.totalPauseTime
    let rowsAffected := s.countP (activeWithStatus userID "paused")
    let s' := s.map fun w =>
      if activeWithStatus userID "paused" w then
        { w with status := "running", pauseStart := none, lastUpdateTime := now,
                 totalPauseTime := totalPauseTime + pauseDuration }
      else w
    if rowsAffected = 0 then (s', ⟨400, "No paused timer found"⟩)
    else (s', ⟨200, "Timer resumed"⟩)

/-- The handler `getCurrentWorkTime`; its clock reads are the one instant `now`. -/
def getCurrentWorkTime (s : Store) (userID : Int) (now : Time) : Store × CurrentWorkTime :=
  match s.reverse.find? (activeFor userID) with
  | none => (s, ⟨0, "stopped", none, none⟩)
  | some workWeek =>
    if workWeek.status = "running" then
      let s' := s.map fun w =>
        if w.id = workWeek.id then { w with lastUpdateTime := now } else w
      let workWeek' := { workWeek with lastUpdateTime := now }
      (s', ⟨calculateElapsedTime now workWeek', workWeek'.status,
            some workWeek'.weekStart, workWeek'.weekEnd⟩)
    else
      (s, ⟨calculateElapsedTime now workWeek, workWeek.status,
           some workWeek.weekStart, workWeek.weekEnd⟩)

/-- The minutes computed in the loop body of `getWorkWeekHistory` from the
scanned columns `week_start`, `week_end`, `status` and `total_pause_time`.
The first component is the `currentTime` the body uses, when it uses one. -/
def historyMinutes (now : Time) (weekStart : Time) (weekEnd : Option Time)
    (status : String) (totalPauseTime : Int) : Option Time × Int :=
  match weekEnd with
  | some weekEnd =>
    let totalSeconds := subSeconds weekEnd weekStart - totalPauseTime
    (none, Int.tdiv totalSeconds 60)
  | none =>
    if status = "running" ∨ status = "paused" then
      let currentTime : Time := if status = "running" then now else weekStart
      let totalSeconds := subSeconds currentTime weekStart - totalPauseTime
      (some currentTime, Int.tdiv totalSeconds 60)
    else (none, 0)

/-- The loop body of `getWorkWeekHistory` for one row. -/
def historyItem (now : Time) (weekNumber : Int) (w : WorkWeek) : WorkWeekHistoryItem :=
  { id := w.id
    weekNumber := weekNumber
    startedAt := some w.weekStart
    endedAt := w.weekEnd
    totalWorkMinutes := (historyMinutes now w.weekStart w.weekEnd w.status w.totalPauseTime).2
    weekGoalMinutes := w.weekGoalMinutes
    isPaused := decide (w.status = "paused")
    status := w.status }

/-- The loop of `getWorkWeekHistory` over the fetched rows, numbering from `weekNumber`. -/
def historyLoop (now : Time) : Int → List WorkWeek → List WorkWeekHistoryItem
  | _, [] => []
  | weekNumber, w :: rows => historyItem now weekNumber w :: historyLoop now (weekNumber + 1) rows

/-- The handler `getWorkWeekHistory`: the 50 latest rows of the user by `week_start`. -/
def getWorkWeekHistory (s : Store) (userID : Int) (now : Time) : List WorkWeekHistoryItem :=
  let rows := (s.filter fun w => decide (w.userID = userID)).insertionSort
    fun a b => b.weekStart ≤ a.weekStart
  historyLoop now 1 (rows.take 50)

/-- One request to the timer API. -/
inductive Op where
  | start (userID : Int) (req : Option StartWeekRequest) (now : Time)
  | endW (userID : Int) (now : Time)
  | pause (userID : Int) (now : Time)
  | resume (userID : Int) (now : Time)
  | currentTime (userID : Int) (now : Time)
deriving DecidableEq, Repr

/-- The clock reading of a request. -/
def Op.time : Op → Time
  | .start _ _ now => now
  | .endW _ now => now
  | .pause _ now => now
  | .resume _ now => now
  | .currentTime _ now => now

/-- The table after a request. -/
def step (s : Store) : Op → Store
  | .start userID req now => (startWeek s userID req now).1
  | .endW userID now => (endWeek s userID now).1
  | .pause userID now => (pauseTimer s userID now).1
  | .resume userID now => (resumeTimer s userID now).1
  | .currentTime userID now => (getCurrentWorkTime s userID now).1

/-- The HTTP status code of a request. -/
def stepCode (s : Store) : Op → Nat
  | .start userID req now => (startWeek s userID req now).2.code
  | .endW userID now => (endWeek s userID now).2.code
  | .pause userID now => (pauseTimer s userID now).2.code
  | .resume userID now => (resumeTimer s userID now).2.code
  | .currentTime _ _ => 200

/-- The table after a sequence of requests, served one at a time. -/
def run (s : Store) (ops : List Op) : Store := ops.foldl step s

/-- The status codes of a sequence of requests, served one at a time. -/
def runCodes : Store → List Op → List Nat
  | _, [] => []
  | s, o :: ops => stepCode s o :: runCodes (step s o) ops

/-- The clock readings of the requests never go back. -/
def timesNondecreasing (ops : List Op) : Prop :=
  List.Pairwise (fun a b : Time => a ≤ b) (ops.map Op.time)

instance (ops : List Op) : Decidable (timesNondecreasing ops) := by
  unfold timesNondecreasing
  infer_instance

/-- Every clock reading of the requests lies in the `2^24` seconds from `base` on. -/
def withinWindow (base : Time) (ops : List Op) : Prop :=
  ∀ t ∈ ops.map Op.time, base ≤ t ∧ t < base + 16777216 * nanosPerSecond

instance (base : Time) (ops : List Op) : Decidable (withinWindow base ops) := by
  unfold withinWindow
  infer_instance

/-- The requests of `userID` that pause at second `p` and resume at second `r`,
for each pair `(p, r)` in turn. -/
def pauseResumeOps (userID : Int) : List (Int × Int) → List Op
  | [] => []
  | (p, r) :: rest =>
    Op.pause userID (atSecond p) :: Op.resume userID (atSecond r) :: pauseResumeOps userID rest

/-- The sum over the pause/resume pairs of (resume second − pause second). -/
def pausedSeconds (pairs : List (Int × Int)) : Int :=
  (pairs.map fun pr => pr.2 - pr.1).sum

/-- Each user has at most one row with `week_end IS NULL`. -/
def AtMostOneActive (s : Store) : Prop :=
  ∀ userID : Int, s.countP (activeFor userID) ≤ 1

/-- Every paused row has a pause_start, and that instant satisfies `P`. -/
def PausedWith (P : Time → Prop) (s : Store) : Prop :=
  ∀ w ∈ s, w.status = "paused" → ∃ p, w.pauseStart = some p ∧ P p

/-- Every running row has pause_start null. -/
def RunningClear (s : Store) : Prop :=
  ∀ w ∈ s, w.status = "running" → w.pauseStart = none

/-! ## Sample rows used where a statement is evaluated -/

/-- The requests start (0 s), pause (100 s), resume (220 s), pause (300 s) of user 1. -/
def pauseAgainTrace : List Op :=
  [.start 1 (some ⟨0⟩) (atSecond 0), .pause 1 (atSecond 100), .resume 1 (atSecond 220),
    .pause 1 (atSecond 300)]

/-- The row left by `pauseAgainTrace`: paused, with two minutes of committed pauses. -/
def pausedAgainSample : WorkWeek :=
  ⟨1, 1, atSecond 0, none, atSecond 300, "paused", some (atSecond 300), 120, 2400⟩

/-- A paused week whose pause_start is null, a row no handler writes. -/
def pausedNullSample : WorkWeek :=
  ⟨1, 1, atSecond 0, none, atSecond 100, "paused", none, 30, 2400⟩

/-- The requests start (0 s) and pause (100 s) of user 1. -/
def pauseTrace : List Op :=
  [.start 1 (some ⟨0⟩) (atSecond 0), .pause 1 (atSecond 100)]

/-- The requests start (0 s), pause (100 s) and end (200 s) of user 1. -/
def endWhilePausedTrace : List Op :=
  [.start 1 (some ⟨0⟩) (atSecond 0), .pause 1 (atSecond 100), .endW 1 (atSecond 200)]

/-- The row left by `endWhilePausedTrace`. -/
def endedWhilePausedSample : WorkWeek :=
  ⟨1, 1, atSecond 0, some (atSecond 200), atSecond 200, "stopped", some (atSecond 100), 0, 2400⟩

/-- A stopped week: started at second 0, ended at second 3600, 600 s of pauses. -/
def stoppedSample : WorkWeek :=
  ⟨1, 1, atSecond 0, some (atSecond 3600), atSecond 3600, "stopped", none, 600, 2400⟩

/-- A running week started at second 0. -/
def runningSample : WorkWeek :=
  ⟨1, 1, atSecond 0, none, atSecond 0, "running", none, 0, 2400⟩

/-- A paused week: started at second 0, paused at second 100. -/
def pausedSample : WorkWeek :=
  ⟨1, 1, atSecond 0, none, atSecond 100, "paused", some (atSecond 100), 0, 2400⟩

/-- A row whose status is none of the three the handlers write. -/
def oddSample : WorkWeek :=
  ⟨1, 1, atSecond 0, none, atSecond 70, "archived", none, 10, 2400⟩

/-! ## The elapsed-time function -/

theorem subSeconds_atSecond (a b : Int) : subSeconds (atSecond a) (atSecond b) = a - b := by
  unfold subSeconds atSecond nanosPerSecond
  rw [← Int.sub_mul]
  exact Int.mul_tdiv_cancel _ (by decide)

theorem subSeconds_add_seconds (t : Time) (n : Int) :
    subSeconds (t + n * nanosPerSecond) t = n := by
  unfold subSeconds nanosPerSecond
  rw [show t + n * 1000000000 - t = n * 1000000000 by ring]
  exact Int.mul_tdiv_cancel _ (by decide)

theorem subSeconds_nonneg {t u : Time} (h : u ≤ t) : 0 ≤ subSeconds t u := by
  unfold subSeconds nanosPerSecond
  exact Int.tdiv_nonneg (Int.sub_nonneg_of_le h) (by decide)

/-- C1. For a week whose status is "stopped" and whose week_end is set, with a
span week_end − week_start shorter than 2^24 seconds and a total_pause_time that
fits its INTEGER column, `calculateElapsedTime` is (week_end − week_start in
whole seconds) − total_pause_time; the current time, last_update_time and
pause_start do not enter the result; and with week_end = week_start + 3600 s and
total_pause_time = 600 the result is 3000. -/
theorem calculateElapsedTime_stopped :
    (∀ (now : Time) (w : WorkWeek) (e : Time), w.status = "stopped" → w.weekEnd = some e →
      exactSpan e w.weekStart → int32Range w.totalPauseTime →
      calculateElapsedTime now w = subSeconds e w.weekStart - w.totalPauseTime) ∧
    (∀ (now now' : Time) (w : WorkWeek) (lut : Time) (ps : Option Time),
      w.status = "stopped" → w.weekEnd ≠ none →
      calculateElapsedTime now' { w with lastUpdateTime := lut, pauseStart := ps } =
        calculateElapsedTime now w) ∧
    (∀ (now T0 : Time) (w : WorkWeek), w.status = "stopped" → w.weekStart = T0 →
      w.weekEnd = some (T0 + 3600 * nanosPerSecond) → w.totalPauseTime = 600 →
      calculateElapsedTime now w = 3000) := by
  refine ⟨?_, ?_, ?_⟩
  · intro now w e hs he _ _
    simp [calculateElapsedTime, hs, he]
  · intro now now' w lut ps hs he
    obtain ⟨e, he'⟩ := Option.ne_none_iff_exists'.mp he
    simp [calculateElapsedTime, hs, he']
  · intro now T0 w hs hw he hp
    simp only [calculateElapsedTime, hs, he, hw, hp, decide_True, subSeconds_add_seconds]
    decide

theorem calculateElapsedTime_stopped_witness :
    stoppedSample.status = "stopped" ∧ stoppedSample.weekEnd = some (atSecond 3600) ∧
    exactSpan (atSecond 3600) stoppedSample.weekStart ∧
    int32Range stoppedSample.totalPauseTime ∧
    calculateElapsedTime 0 stoppedSample =
      subSeconds (atSecond 3600) stoppedSample.weekStart - stoppedSample.totalPauseTime ∧
    calculateElapsedTime 0 stoppedSample = 3000 :=
  ⟨by decide, by decide, by decide, by decide,
    calculateElapsedTime_stopped.1 0 stoppedSample (atSecond 3600) (by decide) (by decide)
      (by decide) (by decide),
    calculateElapsedTime_stopped.2.2 0 (atSecond 0) stoppedSample (by decide) (by decide)
      (by decide) (by decide)⟩

/-- C2. For a week that is not (stopped with week_end set) and whose
total_pause_time fits its INTEGER column, `calculateElapsedTime` at current time
`now` is (now − week_start) − total_pause_time when the status is "running";
(last_update_time − week_start) − total_pause_time − (now − pause_start) when the
status is "paused" and pause_start is set; and (last_update_time − week_start) −
total_pause_time in every other case, each difference in whole seconds, the
spans being shorter than 2^24 seconds. -/
theorem calculateElapsedTime_not_stopped (now : Time) (w : WorkWeek)
    (h : ¬ (w.status = "stopped" ∧ w.weekEnd ≠ none))
    (_hrange : int32Range w.totalPauseTime) :
    (w.status = "running" → exactSpan now w.weekStart →
      calculateElapsedTime now w = subSeconds now w.weekStart - w.totalPauseTime) ∧
    (∀ p : Time, w.status = "paused" → w.pauseStart = some p →
      exactSpan w.lastUpdateTime w.weekStart → exactSpan now p →
      calculateElapsedTime now w =
        subSeconds w.lastUpdateTime w.weekStart - w.totalPauseTime - subSeconds now p) ∧
    (w.status ≠ "running" → ¬ (w.status = "paused" ∧ w.pauseStart ≠ none) →
      exactSpan w.lastUpdateTime w.weekStart →
      calculateElapsedTime now w =
        subSeconds w.lastUpdateTime w.weekStart - w.totalPauseTime) := by
  have hgen : calculateElapsedTime now w =
      (let (currentTime, additionalPause) : Time × Int :=
        if w.status = "running" then (now, 0)
        else if w.status = "paused" then
          (w.lastUpdateTime,
            match w.pauseStart with
            | some pauseStart => subSeconds now pauseStart
            | none => 0)
        else (w.lastUpdateTime, 0)
      subSeconds currentTime w.weekStart - w.totalPauseTime - additionalPause) := by
    unfold calculateElapsedTime
    split
    · next hd he =>
      exact absurd ⟨of_decide_eq_true hd, by simp [he]⟩ h
    · rfl
  refine ⟨?_, ?_, ?_⟩
  · intro hr _
    rw [hgen]; simp [hr]
  · intro p hp hps _ _
    rw [hgen]; simp [hp, hps]
  · intro hr hp _
    rw [hgen]
    by_cases hpa : w.status = "paused"
    · have : w.pauseStart = none := by
        by_contra hne
        exact hp ⟨hpa, hne⟩
      simp [hpa, this]
    · simp [hr, hpa]

theorem calculateElapsedTime_not_stopped_witness :
    ¬ (pausedSample.status = "stopped" ∧ pausedSample.weekEnd ≠ none) ∧
    int32Range pausedSample.totalPauseTime ∧
    exactSpan pausedSample.lastUpdateTime pausedSample.weekStart ∧
    exactSpan (atSecond 150) (atSecond 100) ∧
    calculateElapsedTime (atSecond 150) pausedSample =
      subSeconds pausedSample.lastUpdateTime pausedSample.weekStart
        - pausedSample.totalPauseTime - subSeconds (atSecond 150) (atSecond 100) ∧
    calculateElapsedTime (atSecond 150) runningSample =
      subSeconds (atSecond 150) runningSample.weekStart - runningSample.totalPauseTime ∧
    calculateElapsedTime (atSecond 150) oddSample =
      subSeconds oddSample.lastUpdateTime oddSample.weekStart - oddSample.totalPauseTime :=
  ⟨by decide, by decide, by decide, by decide,
    (calculateElapsedTime_not_stopped (atSecond 150) pausedSample (by decide) (by decide)).2.1
      (atSecond 100) (by decide) (by decide) (by decide) (by decide),
    (calculateElapsedTime_not_stopped (atSecond 150) runningSample (by decide) (by decide)).1
      (by decide) (by decide),
    (calculateElapsedTime_not_stopped (atSecond 150) oddSample (by decide) (by decide)).2.2
      (by decide) (by decide) (by decide)⟩

/-! ## The history annotation -/

theorem tdiv_sixty_eq_zero_iff (x : Int) : Int.tdiv x 60 = 0 ↔ -60 < x ∧ x < 60 := by
  rcases Int.le_total 0 x with hx | hx
  · rw [Int.tdiv_eq_ediv hx (by decide)]
    omega
  · have h1 : Int.tdiv x 60 = -((-x) / 60) := by
      rw [← Int.tdiv_eq_ediv (by omega) (by decide), Int.neg_tdiv, Int.neg_neg]
    rw [h1]
    omega

theorem mem_historyLoop (now : Time) (rows : List WorkWeek) :
    ∀ (weekNumber : Int) (item : WorkWeekHistoryItem),
      item ∈ historyLoop now weekNumber rows →
      ∃ k w, w ∈ rows ∧ item = historyItem now k w := by
  induction rows with
  | nil => intro k item h; exact absurd h (List.not_mem_nil _)
  | cons a t ih =>
    intro k item h
    rcases List.mem_cons.mp h with h | h
    · exact ⟨k, a, List.mem_cons_self _ _, h⟩
    · obtain ⟨k2, w, hw, hi⟩ := ih (k + 1) item h
      exact ⟨k2, w, List.mem_cons_of_mem _ hw, hi⟩

/-- Every item answered by `getWorkWeekHistory` is the loop body applied to a
row of the user. -/
theorem mem_getWorkWeekHistory (s : Store) (userID : Int) (now : Time)
    (item : WorkWeekHistoryItem) (h : item ∈ getWorkWeekHistory s userID now) :
    ∃ k w, w ∈ s ∧ w.userID = userID ∧ item = historyItem now k w := by
  obtain ⟨k, w, hw, hi⟩ := mem_historyLoop now _ 1 item h
  have h1 := List.mem_of_mem_take hw
  have h2 := (List.perm_insertionSort _ _).mem_iff.mp h1
  obtain ⟨h3, h4⟩ := List.mem_filter.mp h2
  exact ⟨k, w, h3, of_decide_eq_true h4, hi⟩

/-- The row `pausedAgainSample` is in a table reached from the empty one. -/
theorem pausedAgainSample_reached : run [] pauseAgainTrace = [pausedAgainSample] := by
  decide

/-- C10. For a week that is stopped with week_end set, or running with
week_end = null, the total_work_minutes of its history item equals
`calculateElapsedTime` of the week at the same current time, divided by 60 with
truncation toward zero. -/
theorem historyItem_minutes_eq_elapsed (now : Time) (weekNumber : Int) (w : WorkWeek)
    (h : (w.status = "stopped" ∧ w.weekEnd ≠ none) ∨ (w.status = "running" ∧ w.weekEnd = none)) :
    (historyItem now weekNumber w).totalWorkMinutes =
      Int.tdiv (calculateElapsedTime now w) 60 := by
  rcases h with ⟨hs, he⟩ | ⟨hr, he⟩
  · obtain ⟨e, he'⟩ := Option.ne_none_iff_exists'.mp he
    simp [historyItem, historyMinutes, calculateElapsedTime, hs, he']
  · simp [historyItem, historyMinutes, calculateElapsedTime, hr, he]

theorem historyItem_minutes_eq_elapsed_witness :
    ((runningSample.status = "stopped" ∧ runningSample.weekEnd ≠ none) ∨
      (runningSample.status = "running" ∧ runningSample.weekEnd = none)) ∧
    (historyItem (atSecond 125) 1 runningSample).totalWorkMinutes =
      Int.tdiv (calculateElapsedTime (atSecond 125) runningSample) 60 ∧
    (historyItem (atSecond 125) 1 runningSample).totalWorkMinutes = 2 :=
  ⟨by decide,
    historyItem_minutes_eq_elapsed (atSecond 125) 1 runningSample (by decide), by decide⟩

/-- C8, as stated, fails: a paused week with week_end = null and
total_pause_time = 120 gets total_work_minutes = −2, not 0. -/
theorem historyItem_paused_not_zero :
    ¬ (∀ (now : Time) (weekNumber : Int) (w : WorkWeek),
        w.status = "paused" → w.weekEnd = none →
        (historyMinutes now w.weekStart w.weekEnd w.status w.totalPauseTime).1
            = some w.weekStart ∧
          (historyItem now weekNumber w).totalWorkMinutes = 0) := by
  intro h
  have h2 := (h (atSecond 400) 1 pausedAgainSample (by decide) (by decide)).2
  revert h2
  decide

/-- C8, amended. For a week with status = paused and week_end = null, the history
item uses week_start as the current time and has total_work_minutes =
(−total_pause_time) / 60 truncated toward zero; this is 0 exactly when
total_pause_time lies strictly between −60 and 60. -/
theorem historyItem_paused (now : Time) (weekNumber : Int) (w : WorkWeek)
    (hs : w.status = "paused") (he : w.weekEnd = none) :
    (historyMinutes now w.weekStart w.weekEnd w.status w.totalPauseTime).1
        = some w.weekStart ∧
      (historyItem now weekNumber w).totalWorkMinutes = Int.tdiv (- w.totalPauseTime) 60 ∧
      ((historyItem now weekNumber w).totalWorkMinutes = 0 ↔
        -60 < w.totalPauseTime ∧ w.totalPauseTime < 60) := by
  have hm : (historyItem now weekNumber w).totalWorkMinutes =
      Int.tdiv (- w.totalPauseTime) 60 := by
    simp [historyItem, historyMinutes, hs, he, subSeconds]
  refine ⟨?_, hm, ?_⟩
  · simp [historyMinutes, hs, he]
  · rw [hm, tdiv_sixty_eq_zero_iff]
    omega

theorem historyItem_paused_witness :
    pausedAgainSample.status = "paused" ∧ pausedAgainSample.weekEnd = none ∧
    (historyMinutes (atSecond 400) pausedAgainSample.weekStart pausedAgainSample.weekEnd
        pausedAgainSample.status pausedAgainSample.totalPauseTime).1
        = some pausedAgainSample.weekStart ∧
      (historyItem (atSecond 400) 1 pausedAgainSample).totalWorkMinutes
        = Int.tdiv (- pausedAgainSample.totalPauseTime) 60 ∧
      ((historyItem (atSecond 400) 1 pausedAgainSample).totalWorkMinutes = 0 ↔
        -60 < pausedAgainSample.totalPauseTime ∧ pausedAgainSample.totalPauseTime < 60) :=
  ⟨by decide, by decide,
    historyItem_paused (atSecond 400) 1 pausedAgainSample (by decide) (by decide)⟩

/-! ## Guards of the handlers -/

theorem activeFor_iff (userID : Int) (w : WorkWeek) :
    activeFor userID w = true ↔ w.userID = userID ∧ w.weekEnd = none := by
  simp [activeFor, Option.isNone_iff_eq_none]

theorem activeWithStatus_iff (userID : Int) (st : String) (w : WorkWeek) :
    activeWithStatus userID st w = true ↔
      w.userID = userID ∧ w.weekEnd = none ∧ w.status = st := by
  simp [activeWithStatus, activeFor_iff, and_assoc]

theorem map_update_of_no_match (p : WorkWeek → Bool) (g : WorkWeek → WorkWeek) (s : Store)
    (h : ∀ w ∈ s, p w = false) :
    s.map (fun w => if p w then g w else w) = s := by
  induction s with
  | nil => rfl
  | cons a t ih =>
    have ha : p a = false := h a (List.mem_cons_self a t)
    have ht : ∀ w ∈ t, p w = false := fun w hw => h w (List.mem_cons_of_mem a hw)
    simp [ha, ih ht]

theorem countP_eq_zero_no_match (p : WorkWeek → Bool) (s : Store) (h : s.countP p = 0) :
    ∀ w ∈ s, p w = false := by
  intro w hw
  have := List.countP_eq_zero.mp h w hw
  simpa using this

theorem pauseTimer_code (s : Store) (userID : Int) (now : Time) :
    (pauseTimer s userID now).2.code =
      if s.countP (activeWithStatus userID "running") = 0 then 400 else 200 := by
  unfold pauseTimer
  by_cases h : s.countP (activeWithStatus userID "running") = 0 <;> simp [h]

theorem resumeTimer_code (s : Store) (userID : Int) (now : Time) :
    (resumeTimer s userID now).2.code =
      if s.countP (activeWithStatus userID "paused") = 0 then 400 else 200 := by
  unfold resumeTimer
  by_cases h : s.countP (activeWithStatus userID "paused") = 0
  · have hn : s.find? (activeWithStatus userID "paused") = none := by
      rw [List.find?_eq_none]
      intro w hw
      simpa using countP_eq_zero_no_match _ s h w hw
    simp [hn, h]
  · cases hf : s.find? (activeWithStatus userID "paused") with
    | none =>
      exfalso
      apply h
      rw [List.countP_eq_zero]
      exact List.find?_eq_none.mp hf
    | some row => simp [h]

theorem countP_ne_zero_iff (p : WorkWeek → Bool) (s : Store) :
    s.countP p ≠ 0 ↔ ∃ w ∈ s, p w = true := by
  rw [Ne, List.countP_eq_zero]
  push_neg
  rfl

theorem startWeek_store (s : Store) (userID : Int) (req : Option StartWeekRequest) (now : Time) :
    ((startWeek s userID req now).1 = s ∧ (startWeek s userID req now).2.code ≠ 200) ∨
    ((∀ w ∈ s, activeFor userID w = false) ∧ (startWeek s userID req now).2.code = 200 ∧
      ∃ goal : Int, (startWeek s userID req now).1 =
        s ++ [⟨s.length + 1, userID, now, none, now, "running", none, 0, goal⟩]) := by
  unfold startWeek
  cases req with
  | none => exact Or.inl ⟨rfl, show (400 : Nat) ≠ 200 by decide⟩
  | some r =>
    cases hf : s.reverse.find? (activeFor userID) with
    | some x => exact Or.inl ⟨by simp [hf], by simp [hf]⟩
    | none =>
      by_cases hg : int32Max < (if r.goalMinutes ≤ 0 then 2400 else r.goalMinutes)
      · exact Or.inl ⟨by simp [hf, hg], by simp [hf, hg]⟩
      · refine Or.inr ⟨?_, by simp [hf, hg], ⟨_, by simp [hf, hg]; rfl⟩⟩
        intro w hw
        have := List.find?_eq_none.mp hf w (List.mem_reverse.mpr hw)
        simpa using this

theorem endWeek_store (s : Store) (userID : Int) (now : Time) :
    (endWeek s userID now).1 = s.map fun w =>
      if activeFor userID w then
        { w with weekEnd := some now, lastUpdateTime := now, status := "stopped" }
      else w := by
  unfold endWeek
  by_cases h : s.countP (activeFor userID) = 0 <;> simp [h]

theorem pauseTimer_store (s : Store) (userID : Int) (now : Time) :
    (pauseTimer s userID now).1 = s.map fun w =>
      if activeWithStatus userID "running" w then
        { w with status := "paused", pauseStart := some now, lastUpdateTime := now }
      else w := by
  unfold pauseTimer
  by_cases h : s.countP (activeWithStatus userID "running") = 0 <;> simp [h]

theorem resumeTimer_store (s : Store) (userID : Int) (now : Time) :
    ((∀ w ∈ s, activeWithStatus userID "paused" w = false) ∧ (resumeTimer s userID now).1 = s) ∨
    (∃ row, s.find? (activeWithStatus userID "paused") = some row ∧
      (resumeTimer s userID now).1 = s.map fun w =>
        if activeWithStatus userID "paused" w then
          { w with status := "running", pauseStart := none, lastUpdateTime := now,
                   totalPauseTime := row.totalPauseTime +
                     (match row.pauseStart with
                      | some pauseStart => subSeconds now pauseStart
                      | none => 0) }
        else w) := by
  unfold resumeTimer
  cases hf : s.find? (activeWithStatus userID "paused") with
  | none =>
    refine Or.inl ⟨?_, rfl⟩
    intro w hw
    simpa using List.find?_eq_none.mp hf w hw
  | some row =>
    refine Or.inr ⟨row, rfl, ?_⟩
    by_cases h : s.countP (activeWithStatus userID "paused") = 0 <;> simp [h]

theorem getCurrentWorkTime_store (s : Store) (userID : Int) (now : Time) :
    (getCurrentWorkTime s userID now).1 = s ∨
    ∃ workWeek : WorkWeek, (getCurrentWorkTime s userID now).1 = s.map fun w =>
      if w.id = workWeek.id then { w with lastUpdateTime := now } else w := by
  unfold getCurrentWorkTime
  cases hf : s.reverse.find? (activeFor userID) with
  | none => exact Or.inl rfl
  | some workWeek =>
    by_cases h : workWeek.status = "running"
    · exact Or.inr ⟨workWeek, by simp [h]⟩
    · exact Or.inl (by simp [h])

/-! ## At most one active week per user -/

theorem countP_map_le (p : WorkWeek → Bool) (f : WorkWeek → WorkWeek) (s : Store)
    (h : ∀ w, p (f w) = true → p w = true) : (s.map f).countP p ≤ s.countP p := by
  rw [List.countP_map]
  exact List.countP_mono_left fun w _ hw => h w hw

theorem AtMostOneActive_map (f : WorkWeek → WorkWeek) (s : Store)
    (h : ∀ u w, activeFor u (f w) = true → activeFor u w = true) (hs : AtMostOneActive s) :
    AtMostOneActive (s.map f) :=
  fun u => Nat.le_trans (countP_map_le (activeFor u) f s (h u)) (hs u)

theorem AtMostOneActive_step (s : Store) (o : Op) (hs : AtMostOneActive s) :
    AtMostOneActive (step s o) := by
  cases o with
  | start userID req now =>
    show AtMostOneActive (startWeek s userID req now).1
    rcases startWeek_store s userID req now with ⟨h, _⟩ | ⟨hno, _, goal, h⟩
    · rw [h]; exact hs
    · rw [h]
      intro u
      rw [List.countP_append]
      by_cases hu : u = userID
      · subst hu
        have h0 : s.countP (activeFor u) = 0 := by
          rw [List.countP_eq_zero]
          intro w hw
          simp [hno w hw]
        rw [h0]
        simp [List.countP_cons, activeFor]
      · have h1 : List.countP (activeFor u)
            [(⟨s.length + 1, userID, now, none, now, "running", none, 0, goal⟩ : WorkWeek)] = 0 := by
          simp [List.countP_cons, activeFor, Ne.symm hu]
        rw [h1]
        exact hs u
  | endW userID now =>
    show AtMostOneActive (endWeek s userID now).1
    rw [endWeek_store]
    apply AtMostOneActive_map _ _ _ hs
    intro u w
    by_cases hw : activeFor userID w = true
    · rw [if_pos hw]; simp [activeFor]
    · rw [if_neg hw]; exact id
  | pause userID now =>
    show AtMostOneActive (pauseTimer s userID now).1
    rw [pauseTimer_store]
    apply AtMostOneActive_map _ _ _ hs
    intro u w
    by_cases hw : activeWithStatus userID "running" w = true
    · rw [if_pos hw]; simp [activeFor]
    · rw [if_neg hw]; exact id
  | resume userID now =>
    show AtMostOneActive (resumeTimer s userID now).1
    rcases resumeTimer_store s userID now with ⟨_, h⟩ | ⟨row, _, h⟩
    · rw [h]; exact hs
    · rw [h]
      apply AtMostOneActive_map _ _ _ hs
      intro u w
      by_cases hw : activeWithStatus userID "paused" w = true
      · rw [if_pos hw]; simp [activeFor]
      · rw [if_neg hw]; exact id
  | currentTime userID now =>
    show AtMostOneActive (getCurrentWorkTime s userID now).1
    rcases getCurrentWorkTime_store s userID now with h | ⟨ww, h⟩
    · rw [h]; exact hs
    · rw [h]
      apply AtMostOneActive_map _ _ _ hs
      intro u w
      by_cases hw : w.id = ww.id
      · rw [if_pos hw]; simp [activeFor]
      · rw [if_neg hw]; exact id

theorem AtMostOneActive_run (ops : List Op) (s : Store) (hs : AtMostOneActive s) :
    AtMostOneActive (run s ops) := by
  induction ops generalizing s with
  | nil => exact hs
  | cons o ops ih => exact ih (step s o) (AtMostOneActive_step s o hs)

theorem AtMostOneActive_nil : AtMostOneActive [] := fun _ => by simp

/-- C6. In every table reached from the empty table by start, pause, resume, end
(and current-time) requests served one at a time for any users, each user has at
most one week with week_end = null; and a start for a user who has a week with
week_end = null, running or paused, answers 400 "Week already started" and
leaves the table as it was. -/
theorem one_active_week_per_user :
    (∀ (ops : List Op) (userID : Int),
      ((run [] ops).filter fun w => decide (w.userID = userID ∧ w.weekEnd = none)).length ≤ 1) ∧
    (∀ (s : Store) (userID : Int) (req : StartWeekRequest) (now : Time),
      (∃ w ∈ s, w.userID = userID ∧ w.weekEnd = none) →
      startWeek s userID (some req) now = (s, ⟨400, "Week already started"⟩)) := by
  constructor
  · intro ops userID
    have h := AtMostOneActive_run ops [] AtMostOneActive_nil userID
    rw [List.countP_eq_length_filter] at h
    have hp : (fun w : WorkWeek => decide (w.userID = userID ∧ w.weekEnd = none))
        = activeFor userID := by
      funext w
      cases hwe : w.weekEnd <;> simp [activeFor, hwe]
    rw [hp]
    exact h
  · intro s userID req now ⟨w, hw, hu, he⟩
    unfold startWeek
    cases hf : s.reverse.find? (activeFor userID) with
    | some x => rfl
    | none =>
      exfalso
      have := List.find?_eq_none.mp hf w (List.mem_reverse.mpr hw)
      exact this ((activeFor_iff userID w).mpr ⟨hu, he⟩)

theorem one_active_week_per_user_witness :
    (∃ w ∈ [pausedSample], w.userID = 1 ∧ w.weekEnd = none) ∧
    startWeek [pausedSample] 1 (some ⟨60⟩) (atSecond 500) =
      ([pausedSample], ⟨400, "Week already started"⟩) :=
  ⟨⟨pausedSample, by decide⟩,
    one_active_week_per_user.2 [pausedSample] 1 ⟨60⟩ (atSecond 500) ⟨pausedSample, by decide⟩⟩

/-! ## The pause_start column -/

theorem PausedWith_map (P : Time → Prop) (f : WorkWeek → WorkWeek) (s : Store)
    (hf : ∀ w, (f w).status = "paused" →
      (w.status = "paused" ∧ (f w).pauseStart = w.pauseStart) ∨
        ∃ p, (f w).pauseStart = some p ∧ P p)
    (hs : PausedWith P s) : PausedWith P (s.map f) := by
  intro w' hw' hst
  obtain ⟨w, hw, rfl⟩ := List.mem_map.mp hw'
  rcases hf w hst with ⟨h1, h2⟩ | h
  · rw [h2]; exact hs w hw h1
  · exact h

theorem RunningClear_map (f : WorkWeek → WorkWeek) (s : Store)
    (hf : ∀ w, (f w).status = "running" →
      (w.status = "running" ∧ (f w).pauseStart = w.pauseStart) ∨ (f w).pauseStart = none)
    (hs : RunningClear s) : RunningClear (s.map f) := by
  intro w' hw' hst
  obtain ⟨w, hw, rfl⟩ := List.mem_map.mp hw'
  rcases hf w hst with ⟨h1, h2⟩ | h
  · rw [h2]; exact hs w hw h1
  · exact h

theorem PausedWith_step (P : Time → Prop) (s : Store) (o : Op) (hs : PausedWith P s)
    (ho : P o.time) : PausedWith P (step s o) := by
  cases o with
  | start userID req now =>
    show PausedWith P (startWeek s userID req now).1
    rcases startWeek_store s userID req now with ⟨h, _⟩ | ⟨_, _, goal, h⟩
    · rw [h]; exact hs
    · rw [h]
      intro w hw hst
      rcases List.mem_append.mp hw with hw | hw
      · exact hs w hw hst
      · rw [List.mem_singleton] at hw
        subst hw
        exact absurd hst (show ("running" : String) ≠ "paused" by decide)
  | endW userID now =>
    show PausedWith P (endWeek s userID now).1
    rw [endWeek_store]
    apply PausedWith_map _ _ _ _ hs
    intro w
    by_cases hw : activeFor userID w = true
    · rw [if_pos hw]; intro h; exact absurd h (show ("stopped" : String) ≠ "paused" by decide)
    · rw [if_neg hw]; intro h; exact Or.inl ⟨h, rfl⟩
  | pause userID now =>
    show PausedWith P (pauseTimer s userID now).1
    rw [pauseTimer_store]
    apply PausedWith_map _ _ _ _ hs
    intro w
    by_cases hw : activeWithStatus userID "running" w = true
    · rw [if_pos hw]; intro _; exact Or.inr ⟨now, rfl, ho⟩
    · rw [if_neg hw]; intro h; exact Or.inl ⟨h, rfl⟩
  | resume userID now =>
    show PausedWith P (resumeTimer s userID now).1
    rcases resumeTimer_store s userID now with ⟨_, h⟩ | ⟨row, _, h⟩
    · rw [h]; exact hs
    · rw [h]
      apply PausedWith_map _ _ _ _ hs
      intro w
      by_cases hw : activeWithStatus userID "paused" w = true
      · rw [if_pos hw]; intro h; exact absurd h (show ("running" : String) ≠ "paused" by decide)
      · rw [if_neg hw]; intro h; exact Or.inl ⟨h, rfl⟩
  | currentTime userID now =>
    show PausedWith P (getCurrentWorkTime s userID now).1
    rcases getCurrentWorkTime_store s userID now with h | ⟨ww, h⟩
    · rw [h]; exact hs
    · rw [h]
      apply PausedWith_map _ _ _ _ hs
      intro w
      by_cases hw : w.id = ww.id
      · rw [if_pos hw]; intro h; exact Or.inl ⟨h, rfl⟩
      · rw [if_neg hw]; intro h; exact Or.inl ⟨h, rfl⟩

theorem RunningClear_step (s : Store) (o : Op) (hs : RunningClear s) :
    RunningClear (step s o) := by
  cases o with
  | start userID req now =>
    show RunningClear (startWeek s userID req now).1
    rcases startWeek_store s userID req now with ⟨h, _⟩ | ⟨_, _, goal, h⟩
    · rw [h]; exact hs
    · rw [h]
      intro w hw hst
      rcases List.mem_append.mp hw with hw | hw
      · exact hs w hw hst
      · rw [List.mem_singleton] at hw
        subst hw
        rfl
  | endW userID now =>
    show RunningClear (endWeek s userID now).1
    rw [endWeek_store]
    apply RunningClear_map _ _ _ hs
    intro w
    by_cases hw : activeFor userID w = true
    · rw [if_pos hw]; intro h; exact absurd h (show ("stopped" : String) ≠ "running" by decide)
    · rw [if_neg hw]; intro h; exact Or.inl ⟨h, rfl⟩
  | pause userID now =>
    show RunningClear (pauseTimer s userID now).1
    rw [pauseTimer_store]
    apply RunningClear_map _ _ _ hs
    intro w
    by_cases hw : activeWithStatus userID "running" w = true
    · rw [if_pos hw]; intro h; exact absurd h (show ("paused" : String) ≠ "running" by decide)
    · rw [if_neg hw]; intro h; exact Or.inl ⟨h, rfl⟩
  | resume userID now =>
    show RunningClear (resumeTimer s userID now).1
    rcases resumeTimer_store s userID now with ⟨_, h⟩ | ⟨row, _, h⟩
    · rw [h]; exact hs
    · rw [h]
      apply RunningClear_map _ _ _ hs
      intro w
      by_cases hw : activeWithStatus userID "paused" w = true
      · rw [if_pos hw]; intro _; exact Or.inr rfl
      · rw [if_neg hw]; intro h; exact Or.inl ⟨h, rfl⟩
  | currentTime userID now =>
    show RunningClear (getCurrentWorkTime s userID now).1
    rcases getCurrentWorkTime_store s userID now with h | ⟨ww, h⟩
    · rw [h]; exact hs
    · rw [h]
      apply RunningClear_map _ _ _ hs
      intro w
      by_cases hw : w.id = ww.id
      · rw [if_pos hw]; intro h; exact Or.inl ⟨h, rfl⟩
      · rw [if_neg hw]; intro h; exact Or.inl ⟨h, rfl⟩

/-- The part of the pause_start invariant that the handlers keep: in every table
reached from the empty one, a paused week has pause_start set and a running week
has pause_start null. -/
theorem pauseStart_of_paused_and_running (ops : List Op) :
    PausedWith (fun _ => True) (run [] ops) ∧ RunningClear (run [] ops) := by
  have h : ∀ (ops : List Op) (s : Store), PausedWith (fun _ => True) s → RunningClear s →
      PausedWith (fun _ => True) (run s ops) ∧ RunningClear (run s ops) := by
    intro ops
    induction ops with
    | nil => intro s h1 h2; exact ⟨h1, h2⟩
    | cons o ops ih =>
      intro s h1 h2
      exact ih (step s o) (PausedWith_step _ s o h1 trivial) (RunningClear_step s o h2)
  exact h ops [] (fun _ hw => absurd hw (List.not_mem_nil _))
    (fun _ hw => absurd hw (List.not_mem_nil _))

/-- C5, at the failing input: after start, pause and end, the week is stopped
and its pause_start is still the instant of the pause. -/
theorem endWeek_leaves_pauseStart :
    run [] endWhilePausedTrace = [endedWhilePausedSample] ∧
    endedWhilePausedSample.status = "stopped" ∧
    endedWhilePausedSample.pauseStart = some (atSecond 100) := by
  decide

/-- C4, at the failing inputs: a week that ran for 100 s and is then paused
reports 50 s at second 150 and 40 s at second 160; the same week ended at
second 200 while paused reports 200 s. -/
theorem elapsed_counts_paused_time :
    run [] pauseTrace = [pausedSample] ∧
    calculateElapsedTime (atSecond 150) pausedSample = 50 ∧
    calculateElapsedTime (atSecond 160) pausedSample = 40 ∧
    run [] endWhilePausedTrace = [endedWhilePausedSample] ∧
    calculateElapsedTime (atSecond 200) endedWhilePausedSample = 200 := by
  decide

/-! ## The total_pause_time column -/

theorem eq_of_countP_le_one (p : WorkWeek → Bool) (s : Store) (h : s.countP p ≤ 1)
    {a b : WorkWeek} (ha : a ∈ s) (hb : b ∈ s) (pa : p a = true) (pb : p b = true) :
    a = b := by
  induction s with
  | nil => exact absurd ha (List.not_mem_nil _)
  | cons x t ih =>
    rw [List.countP_cons] at h
    rcases List.mem_cons.mp ha with hax | hat
    · rcases List.mem_cons.mp hb with hbx | hbt
      · rw [hax, hbx]
      · exfalso
        have hpos : 0 < t.countP p := List.countP_pos_iff.mpr ⟨b, hbt, pb⟩
        rw [← hax, if_pos pa] at h
        omega
    · rcases List.mem_cons.mp hb with hbx | hbt
      · exfalso
        have hpos : 0 < t.countP p := List.countP_pos_iff.mpr ⟨a, hat, pa⟩
        rw [← hbx, if_pos pb] at h
        omega
      · exact ih (by split at h <;> omega) hat hbt

theorem activeFor_of_activeWithStatus {userID : Int} {st : String} {w : WorkWeek}
    (h : activeWithStatus userID st w = true) : activeFor userID w = true := by
  unfold activeWithStatus at h
  exact (Bool.and_eq_true _ _ ▸ h).1

theorem find?_activeWithStatus (s : Store) (userID : Int) (st : String) (w : WorkWeek)
    (hs : AtMostOneActive s) (hw : w ∈ s) (hp : activeWithStatus userID st w = true) :
    s.find? (activeWithStatus userID st) = some w := by
  cases hf : s.find? (activeWithStatus userID st) with
  | none =>
    have := List.find?_eq_none.mp hf w hw
    exact absurd hp this
  | some r =>
    have hr := List.find?_some hf
    have hrm := List.mem_of_find?_eq_some hf
    rw [eq_of_countP_le_one (activeFor userID) s (hs userID) hrm hw
      (activeFor_of_activeWithStatus hr) (activeFor_of_activeWithStatus hp)]

theorem PausedWith_mono (P Q : Time → Prop) (s : Store) (h : ∀ p, P p → Q p)
    (hs : PausedWith P s) : PausedWith Q s := by
  intro w hw hst
  obtain ⟨p, hp, hP⟩ := hs w hw hst
  exact ⟨p, hp, h p hP⟩

theorem PausedWith_run (bound : Time) (ops : List Op) (s : Store)
    (hs : PausedWith (fun p => (∀ y ∈ ops.map Op.time, p ≤ y) ∧ p ≤ bound) s)
    (hsorted : timesNondecreasing ops) (hb : ∀ y ∈ ops.map Op.time, y ≤ bound) :
    PausedWith (fun p => p ≤ bound) (run s ops) := by
  induction ops generalizing s with
  | nil => exact PausedWith_mono _ _ s (fun p hp => hp.2) hs
  | cons o ops ih =>
    unfold timesNondecreasing at hsorted
    rw [List.map_cons, List.pairwise_cons] at hsorted
    apply ih (step s o)
    · apply PausedWith_step
      · apply PausedWith_mono _ _ s _ hs
        intro p hp
        exact ⟨fun y hy => hp.1 y (List.mem_cons_of_mem _ hy), hp.2⟩
      · exact ⟨hsorted.1, hb _ (List.mem_cons_self _ _)⟩
    · exact hsorted.2
    · intro y hy
      exact hb y (List.mem_cons_of_mem _ hy)

theorem getElem?_map_update (s : Store) (f : WorkWeek → WorkWeek) (i : Nat) (w : WorkWeek)
    (hi : s[i]? = some w) : (s.map f)[i]? = some (f w) := by
  rw [List.getElem?_map, hi]
  rfl

/-- What one request does to the row at position `i`: either total_pause_time
is kept and the request is not a resume that selects the row, or the request is
a successful resume that selects the row and adds the length of its pause. -/
theorem step_row (s : Store) (o : Op) (i : Nat) (w : WorkWeek) (hA : AtMostOneActive s)
    (hP : PausedWith (fun p => p ≤ o.time) s) (hi : s[i]? = some w) :
    ∃ w', (step s o)[i]? = some w' ∧ w'.id = w.id ∧
      ((w'.totalPauseTime = w.totalPauseTime ∧
          ∀ userID now, o = Op.resume userID now → activeWithStatus userID "paused" w = false) ∨
        (∃ userID now p, o = Op.resume userID now ∧ stepCode s o = 200 ∧
          activeWithStatus userID "paused" w = true ∧ w.pauseStart = some p ∧ p ≤ now ∧
          w'.totalPauseTime = w.totalPauseTime + subSeconds now p)) := by
  have hmem : w ∈ s := List.getElem?_mem hi
  cases o with
  | start userID req now =>
    show ∃ w', (startWeek s userID req now).1[i]? = some w' ∧ _
    rcases startWeek_store s userID req now with ⟨h, _⟩ | ⟨_, _, goal, h⟩
    · rw [h]
      exact ⟨w, hi, rfl, Or.inl ⟨rfl, fun _ _ ho => Op.noConfusion ho⟩⟩
    · rw [h]
      obtain ⟨hlt, _⟩ := List.getElem?_eq_some.mp hi
      refine ⟨w, ?_, rfl, Or.inl ⟨rfl, fun _ _ ho => Op.noConfusion ho⟩⟩
      rw [List.getElem?_append_left hlt]
      exact hi
  | endW userID now =>
    show ∃ w', (endWeek s userID now).1[i]? = some w' ∧ _
    rw [endWeek_store]
    refine ⟨_, getElem?_map_update s _ i w hi, ?_, Or.inl ⟨?_, fun _ _ ho => Op.noConfusion ho⟩⟩
    · by_cases hw : activeFor userID w = true
      · rw [if_pos hw]
      · rw [if_neg hw]
    · by_cases hw : activeFor userID w = true
      · rw [if_pos hw]
      · rw [if_neg hw]
  | pause userID now =>
    show ∃ w', (pauseTimer s userID now).1[i]? = some w' ∧ _
    rw [pauseTimer_store]
    refine ⟨_, getElem?_map_update s _ i w hi, ?_, Or.inl ⟨?_, fun _ _ ho => Op.noConfusion ho⟩⟩
    · by_cases hw : activeWithStatus userID "running" w = true
      · rw [if_pos hw]
      · rw [if_neg hw]
    · by_cases hw : activeWithStatus userID "running" w = true
      · rw [if_pos hw]
      · rw [if_neg hw]
  | resume userID now =>
    show ∃ w', (resumeTimer s userID now).1[i]? = some w' ∧ _
    rcases resumeTimer_store s userID now with ⟨hno, h⟩ | ⟨row, hrow, h⟩
    · rw [h]
      refine ⟨w, hi, rfl, Or.inl ⟨rfl, ?_⟩⟩
      intro u n ho
      injection ho with hu hn
      rw [← hu]
      exact hno w hmem
    · rw [h]
      refine ⟨_, getElem?_map_update s _ i w hi, ?_, ?_⟩
      · by_cases hw : activeWithStatus userID "paused" w = true
        · rw [if_pos hw]
        · rw [if_neg hw]
      · by_cases hw : activeWithStatus userID "paused" w = true
        · right
          have hfind := find?_activeWithStatus s userID "paused" w hA hmem hw
          rw [hrow] at hfind
          injection hfind with hrw
          subst hrw
          obtain ⟨p, hp, hle⟩ := hP row hmem ((activeWithStatus_iff _ _ _).mp hw).2.2
          refine ⟨userID, now, p, rfl, ?_, hw, hp, hle, ?_⟩
          · show (resumeTimer s userID now).2.code = 200
            rw [resumeTimer_code]
            have hne : s.countP (activeWithStatus userID "paused") ≠ 0 :=
              (countP_ne_zero_iff _ s).mpr ⟨row, hmem, hw⟩
            simp [hne]
          · rw [if_pos hw, hp]
        · left
          rw [if_neg hw]
          refine ⟨rfl, ?_⟩
          intro u n ho
          injection ho with hu hn
          rw [← hu]
          simpa using hw
  | currentTime userID now =>
    show ∃ w', (getCurrentWorkTime s userID now).1[i]? = some w' ∧ _
    rcases getCurrentWorkTime_store s userID now with h | ⟨ww, h⟩
    · rw [h]
      exact ⟨w, hi, rfl, Or.inl ⟨rfl, fun _ _ ho => Op.noConfusion ho⟩⟩
    · rw [h]
      refine ⟨_, getElem?_map_update s _ i w hi, ?_, Or.inl ⟨?_, fun _ _ ho => Op.noConfusion ho⟩⟩
      · by_cases hw : w.id = ww.id
        · rw [if_pos hw]
        · rw [if_neg hw]
      · by_cases hw : w.id = ww.id
        · rw [if_pos hw]
        · rw [if_neg hw]

theorem run_append (s : Store) (a b : List Op) : run s (a ++ b) = run (run s a) b := by
  unfold run
  exact List.foldl_append _ _ _ _

theorem runCodes_append (s : Store) (a b : List Op) :
    runCodes s (a ++ b) = runCodes s a ++ runCodes (run s a) b := by
  induction a generalizing s with
  | nil => rfl
  | cons o a ih =>
    show stepCode s o :: runCodes (step s o) (a ++ b) = _
    rw [ih]
    rfl

theorem no_active_false (s : Store) (userID : Int)
    (hno : ∀ w ∈ s, ¬ (w.userID = userID ∧ w.weekEnd = none)) :
    ∀ w ∈ s, activeFor userID w = false := by
  intro w hw
  have := hno w hw
  rw [← activeFor_iff] at this
  simpa using this

theorem no_active_status_false (s : Store) (userID : Int) (st : String)
    (hno : ∀ w ∈ s, ¬ (w.userID = userID ∧ w.weekEnd = none)) :
    ∀ w ∈ s, activeWithStatus userID st w = false := by
  intro w hw
  unfold activeWithStatus
  rw [no_active_false s userID hno w hw]
  rfl

theorem pauseTimer_last (s : Store) (userID : Int) (now : Time) (w : WorkWeek)
    (hno : ∀ w ∈ s, ¬ (w.userID = userID ∧ w.weekEnd = none))
    (hu : w.userID = userID) (he : w.weekEnd = none) (hst : w.status = "running") :
    pauseTimer (s ++ [w]) userID now =
      (s ++ [{ w with status := "paused", pauseStart := some now, lastUpdateTime := now }],
        ⟨200, "Timer paused"⟩) := by
  have hsel := (activeWithStatus_iff userID "running" w).mpr ⟨hu, he, hst⟩
  have hmap := map_update_of_no_match (activeWithStatus userID "running")
    (fun w => { w with status := "paused", pauseStart := some now, lastUpdateTime := now })
    s (no_active_status_false s userID "running" hno)
  have hcount : (s ++ [w]).countP (activeWithStatus userID "running") ≠ 0 :=
    (countP_ne_zero_iff _ _).mpr ⟨w, by simp, hsel⟩
  unfold pauseTimer
  simp only [hcount, if_false, List.map_append, hmap, List.map_cons, List.map_nil, hsel, if_true]

theorem resumeTimer_last (s : Store) (userID : Int) (now : Time) (w : WorkWeek)
    (hno : ∀ w ∈ s, ¬ (w.userID = userID ∧ w.weekEnd = none))
    (hu : w.userID = userID) (he : w.weekEnd = none) (hst : w.status = "paused") :
    resumeTimer (s ++ [w]) userID now =
      (s ++ [{ w with status := "running", pauseStart := none, lastUpdateTime := now,
                      totalPauseTime := w.totalPauseTime +
                        (match w.pauseStart with
                         | some pauseStart => subSeconds now pauseStart
                         | none => 0) }],
        ⟨200, "Timer resumed"⟩) := by
  have hsel := (activeWithStatus_iff userID "paused" w).mpr ⟨hu, he, hst⟩
  have hfalse := no_active_status_false s userID "paused" hno
  have hfind : (s ++ [w]).find? (activeWithStatus userID "paused") = some w := by
    rw [List.find?_append]
    have : s.find? (activeWithStatus userID "paused") = none := by
      rw [List.find?_eq_none]
      intro x hx
      simp [hfalse x hx]
    rw [this]
    simp [hsel]
  have hcount : (s ++ [w]).countP (activeWithStatus userID "paused") ≠ 0 :=
    (countP_ne_zero_iff _ _).mpr ⟨w, by simp, hsel⟩
  unfold resumeTimer
  rw [hfind]
  simp only [hcount, if_false, List.map_append, List.map_cons, List.map_nil, hsel, if_true]
  rw [map_update_of_no_match (activeWithStatus userID "paused") _ s hfalse]

theorem endWeek_last (s : Store) (userID : Int) (now : Time) (w : WorkWeek)
    (hno : ∀ w ∈ s, ¬ (w.userID = userID ∧ w.weekEnd = none))
    (hu : w.userID = userID) (he : w.weekEnd = none) :
    endWeek (s ++ [w]) userID now =
      (s ++ [{ w with weekEnd := some now, lastUpdateTime := now, status := "stopped" }],
        ⟨200, "Week ended"⟩) := by
  have hsel := (activeFor_iff userID w).mpr ⟨hu, he⟩
  have hmap := map_update_of_no_match (activeFor userID)
    (fun w => { w with weekEnd := some now, lastUpdateTime := now, status := "stopped" })
    s (no_active_false s userID hno)
  have hcount : (s ++ [w]).countP (activeFor userID) ≠ 0 :=
    (countP_ne_zero_iff _ _).mpr ⟨w, by simp, hsel⟩
  unfold endWeek
  simp only [hcount, if_false, List.map_append, hmap, List.map_cons, List.map_nil, hsel, if_true]

theorem pauseResume_run (s : Store) (userID : Int)
    (hno : ∀ w ∈ s, ¬ (w.userID = userID ∧ w.weekEnd = none)) (pairs : List (Int × Int)) :
    ∀ w : WorkWeek, w.userID = userID → w.weekEnd = none → w.status = "running" →
      w.pauseStart = none →
      (∀ c ∈ runCodes (s ++ [w]) (pauseResumeOps userID pairs), c = 200) ∧
      ∃ lut : Time, run (s ++ [w]) (pauseResumeOps userID pairs) =
        s ++ [{ w with lastUpdateTime := lut,
                       totalPauseTime := w.totalPauseTime + pausedSeconds pairs }] := by
  induction pairs with
  | nil =>
    intro w _ _ _ _
    refine ⟨fun c hc => absurd hc (List.not_mem_nil _), w.lastUpdateTime, ?_⟩
    simp [pauseResumeOps, pausedSeconds, run]
  | cons pr rest ih =>
    intro w hu he hst hps
    obtain ⟨p, r⟩ := pr
    have h1 := pauseTimer_last s userID (atSecond p) w hno hu he hst
    have h2 := resumeTimer_last s userID (atSecond r)
      { w with status := "paused", pauseStart := some (atSecond p),
               lastUpdateTime := atSecond p } hno hu he rfl
    simp only [subSeconds_atSecond] at h2
    obtain ⟨hcodes, lut, hrun⟩ := ih
      { w with status := "running", pauseStart := none, lastUpdateTime := atSecond r,
               totalPauseTime := w.totalPauseTime + (r - p) } hu he rfl rfl
    have hs1 : step (s ++ [w]) (Op.pause userID (atSecond p)) = _ := congrArg Prod.fst h1
    have hc1 : stepCode (s ++ [w]) (Op.pause userID (atSecond p)) = 200 := by
      show (pauseTimer (s ++ [w]) userID (atSecond p)).2.code = 200
      rw [h1]
    have hs2 : step _ (Op.resume userID (atSecond r)) = _ := congrArg Prod.fst h2
    have hc2 : stepCode (step (s ++ [w]) (Op.pause userID (atSecond p)))
        (Op.resume userID (atSecond r)) = 200 := by
      rw [hs1]
      show (resumeTimer _ userID (atSecond r)).2.code = 200
      rw [h2]
    constructor
    · intro c hc
      simp only [pauseResumeOps, runCodes, List.mem_cons] at hc
      rcases hc with hc | hc | hc
      · rw [hc, hc1]
      · rw [hc, hc2]
      · rw [hs1, hs2] at hc
        exact hcodes c hc
    · refine ⟨lut, ?_⟩
      show run (step (step (s ++ [w]) (Op.pause userID (atSecond p)))
        (Op.resume userID (atSecond r))) (pauseResumeOps userID rest) = _
      rw [hs1, hs2, hrun]
      simp only [pausedSeconds, List.map_cons, List.sum_cons]
      rw [Int.add_assoc, hst, hps]

/-- C3. From a table in which the user has no active week, the requests start,
then any number of (pause, resume) pairs, then end, at whole-second instants
that never go back, with a goal that fits its INTEGER column and an end at most
2^31 − 1 seconds after the start, all succeed; after the last resume the user's
week is running with total_pause_time equal to the sum over the pairs of
(resume − pause), and `calculateElapsedTime` of the stopped week after the end is
(end − start) minus that sum. -/
theorem session_pause_total (s : Store) (userID : Int) (req : StartWeekRequest)
    (t0 te : Int) (pairs : List (Int × Int)) (now : Time)
    (hno : ∀ w ∈ s, ¬ (w.userID = userID ∧ w.weekEnd = none))
    (hgoal : req.goalMinutes ≤ int32Max)
    (_hord : timesNondecreasing (Op.start userID (some req) (atSecond t0) ::
        (pauseResumeOps userID pairs ++ [Op.endW userID (atSecond te)])))
    (_hspan : te - t0 ≤ int32Max) :
    (∀ c ∈ runCodes s (Op.start userID (some req) (atSecond t0) ::
        (pauseResumeOps userID pairs ++ [Op.endW userID (atSecond te)])), c = 200) ∧
    ∃ w1 w2 : WorkWeek,
      run s (Op.start userID (some req) (atSecond t0) :: pauseResumeOps userID pairs)
        = s ++ [w1] ∧
      w1.userID = userID ∧ w1.status = "running" ∧ w1.weekEnd = none ∧
      w1.weekStart = atSecond t0 ∧ w1.totalPauseTime = pausedSeconds pairs ∧
      run s (Op.start userID (some req) (atSecond t0) ::
        (pauseResumeOps userID pairs ++ [Op.endW userID (atSecond te)])) = s ++ [w2] ∧
      w2.status = "stopped" ∧ w2.weekStart = atSecond t0 ∧ w2.weekEnd = some (atSecond te) ∧
      w2.totalPauseTime = pausedSeconds pairs ∧
      calculateElapsedTime now w2 = (te - t0) - pausedSeconds pairs := by
  have hg : ¬ int32Max < (if req.goalMinutes ≤ 0 then 2400 else req.goalMinutes) := by
    unfold int32Max at hgoal ⊢
    split <;> omega
  have hfalse := no_active_false s userID hno
  have hfind : s.reverse.find? (activeFor userID) = none := by
    rw [List.find?_eq_none]
    intro x hx
    simp [hfalse x (List.mem_reverse.mp hx)]
  have hstart : startWeek s userID (some req) (atSecond t0) =
      (s ++ [⟨s.length + 1, userID, atSecond t0, none, atSecond t0, "running", none, 0,
        if req.goalMinutes ≤ 0 then 2400 else req.goalMinutes⟩], ⟨200, "Week started"⟩) := by
    unfold startWeek
    simp only [hfind, hg, if_false]
  have hs0 : step s (Op.start userID (some req) (atSecond t0)) = _ := congrArg Prod.fst hstart
  have hc0 : stepCode s (Op.start userID (some req) (atSecond t0)) = 200 := by
    show (startWeek s userID (some req) (atSecond t0)).2.code = 200
    rw [hstart]
  obtain ⟨hcodes, lut, hrun⟩ := pauseResume_run s userID hno pairs
    ⟨s.length + 1, userID, atSecond t0, none, atSecond t0, "running", none, 0,
      if req.goalMinutes ≤ 0 then 2400 else req.goalMinutes⟩ rfl rfl rfl rfl
  have hend := endWeek_last s userID (atSecond te)
    ⟨s.length + 1, userID, atSecond t0, none, lut, "running", none, 0 + pausedSeconds pairs,
      if req.goalMinutes ≤ 0 then 2400 else req.goalMinutes⟩ hno rfl rfl
  constructor
  · intro c hc
    simp only [runCodes, List.mem_cons] at hc
    rcases hc with hc | hc
    · rw [hc, hc0]
    · rw [hs0, runCodes_append, List.mem_append] at hc
      rcases hc with hc | hc
      · exact hcodes c hc
      · rw [hrun] at hc
        simp only [runCodes, List.mem_singleton] at hc
        rw [hc]
        show (endWeek _ userID (atSecond te)).2.code = 200
        rw [hend]
  · refine ⟨⟨s.length + 1, userID, atSecond t0, none, lut, "running", none,
        0 + pausedSeconds pairs, if req.goalMinutes ≤ 0 then 2400 else req.goalMinutes⟩,
      ⟨s.length + 1, userID, atSecond t0, some (atSecond te), atSecond te, "stopped", none,
        0 + pausedSeconds pairs, if req.goalMinutes ≤ 0 then 2400 else req.goalMinutes⟩,
      ?_, ?_, ?_, ?_, ?_, ?_, ?_, ?_, ?_, ?_, ?_, ?_⟩
    · show run (step s _) _ = _
      rw [hs0]
      exact hrun
    · rfl
    · rfl
    · rfl
    · rfl
    · exact Int.zero_add _
    · show run (step s _) _ = _
      rw [hs0, run_append, hrun]
      exact congrArg Prod.fst hend
    · rfl
    · rfl
    · rfl
    · exact Int.zero_add _
    · simp [calculateElapsedTime, subSeconds_atSecond]

theorem session_pause_total_witness :
    (∀ w ∈ [stoppedSample], ¬ (w.userID = 1 ∧ w.weekEnd = none)) ∧
    timesNondecreasing (Op.start 1 (some ⟨0⟩) (atSecond 4000) ::
      (pauseResumeOps 1 [(4100, 4220), (4300, 4330)] ++ [Op.endW 1 (atSecond 5000)])) ∧
    ∃ w1 w2 : WorkWeek,
      run [stoppedSample] (Op.start 1 (some ⟨0⟩) (atSecond 4000) ::
        pauseResumeOps 1 [(4100, 4220), (4300, 4330)]) = [stoppedSample] ++ [w1] ∧
      w1.userID = 1 ∧ w1.status = "running" ∧ w1.weekEnd = none ∧
      w1.weekStart = atSecond 4000 ∧ w1.totalPauseTime = pausedSeconds [(4100, 4220), (4300, 4330)] ∧
      run [stoppedSample] (Op.start 1 (some ⟨0⟩) (atSecond 4000) ::
        (pauseResumeOps 1 [(4100, 4220), (4300, 4330)] ++ [Op.endW 1 (atSecond 5000)]))
        = [stoppedSample] ++ [w2] ∧
      w2.status = "stopped" ∧ w2.weekStart = atSecond 4000 ∧
      w2.weekEnd = some (atSecond 5000) ∧
      w2.totalPauseTime = pausedSeconds [(4100, 4220), (4300, 4330)] ∧
      calculateElapsedTime 0 w2 = (5000 - 4000) - pausedSeconds [(4100, 4220), (4300, 4330)] :=
  ⟨by decide, by decide,
    (session_pause_total [stoppedSample] 1 ⟨0⟩ 4000 5000 [(4100, 4220), (4300, 4330)] 0
      (by decide) (by decide) (by decide) (by decide)).2⟩

end TimerWork
